import Mathlib

/-!
Verification of the DAWSON court-opinion scraper core
(`src/dawson_scraper/src/`): the token-bucket rate limiter
(`api_client.RateLimiter`), the retry-wrapped HTTP executor
(`api_client.APIClient._make_request`), the persistent per-document state
ledger (`database.DatabaseManager`), and the parallel download coordinator
(`downloader.ParallelDownloader`).

The Python modules are shallowly embedded: SQLite rows become a `List Row`
with every SQL statement translated row by row, `asyncio` coroutines become
pure state-passing functions (the single-queue worker pool is linearized:
the preflight loop runs first, exactly as in the source, and the queued
tasks are then processed one at a time, which realizes one legal schedule
of the cooperative scheduler), wall-clock instants become rationals or
naturals passed explicitly, and the filesystem becomes a size map
`String → Nat` (0 encodes "absent or empty", which is exactly the predicate
`path.exists() and path.stat().st_size > 0` the source tests).
Network and disk nondeterminism is supplied by explicit oracles.
-/

namespace Dawson

/-- `models.DownloadStatus`: status enum of a download record. -/
inductive Status where
  | pending
  | downloading
  | completed
  | failed
  | skipped
deriving DecidableEq, Repr

/-- `models.Opinion`: one court-opinion metadata record (the fields the
downloader consumes; pydantic aliases dropped). -/
structure Opinion where
  docket_entry_id : String
  docket_number : String
  case_caption : String
  document_title : String
  filing_date : String
  judge : Option String
  number_of_pages : Nat
deriving DecidableEq, Repr

/-- One row of the `downloads` table (`database.DownloadRecord`).
Timestamps are abstract instants (`Nat`). -/
structure Row where
  docket_entry_id : String
  docket_number : String
  case_caption : String
  document_title : String
  filing_date : String
  judge : Option String
  pages : Nat
  download_url : Option String
  file_path : Option String
  file_size : Option Nat
  status : Status
  attempts : Nat
  error_message : Option String
  created_at : Nat
  started_at : Option Nat
  completed_at : Option Nat
deriving DecidableEq, Repr

/-- The `downloads` table. The `docket_entry_id` column carries a UNIQUE
constraint in the source schema; theorems that need it take a `Nodup`
hypothesis on the id column. -/
abbrev Ledger := List Row

/-- A ledger status write, recorded as (docket entry id, status the row had
just before the write, status written). One entry per matched row. -/
abbrev Trace := List (String × Status × Status)

/-- Python truthiness of an `Optional[str]` argument: `if download_url:` is
false for both `None` and the empty string. -/
def truthy_str : Option String → Bool
  | none => false
  | some s => s ≠ ""

/-- Python truthiness of an `Optional[int]` argument: `if file_size:` is
false for both `None` and `0`. -/
def truthy_nat : Option Nat → Bool
  | none => false
  | some n => n ≠ 0

/-- The row-level effect of `DatabaseManager.update_download_status`
(`database.py:122-165`): set the status, increment `attempts`, apply each
optional attribute only when truthy, and set `started_at` on DOWNLOADING
resp. `completed_at` on COMPLETED/FAILED. -/
def apply_update (st : Status) (url path : Option String) (size : Option Nat)
    (err : Option String) (now : Nat) (r : Row) : Row :=
  { r with
    status := st
    attempts := r.attempts + 1
    download_url := if truthy_str url then url else r.download_url
    file_path := if truthy_str path then path else r.file_path
    file_size := if truthy_nat size then size else r.file_size
    error_message := if truthy_str err then err else r.error_message
    started_at := if st = Status.downloading then some now else r.started_at
    completed_at :=
      if st = Status.completed ∨ st = Status.failed then some now else r.completed_at }

/-- `DatabaseManager.update_download_status`: the single UPDATE statement
`UPDATE downloads SET ... WHERE docket_entry_id = ?`, applied row by row.
Also returns the trace of status writes (one per matched row). -/
def update_download_status (L : Ledger) (id : String) (st : Status)
    (url path : Option String) (size : Option Nat) (err : Option String)
    (now : Nat) : Ledger × Trace :=
  (L.map fun r =>
      if r.docket_entry_id = id then apply_update st url path size err now r else r,
   L.filterMap fun r =>
      if r.docket_entry_id = id then some (id, r.status, st) else none)

/-- The fresh row inserted by `DatabaseManager.record_opinion`
(`database.py:98-120`): descriptive columns from the opinion, status PENDING,
SQL column defaults for the rest. -/
def new_row (op : Opinion) (now : Nat) : Row :=
  { docket_entry_id := op.docket_entry_id
    docket_number := op.docket_number
    case_caption := op.case_caption
    document_title := op.document_title
    filing_date := op.filing_date
    judge := op.judge
    pages := op.number_of_pages
    download_url := none
    file_path := none
    file_size := none
    status := Status.pending
    attempts := 0
    error_message := none
    created_at := now
    started_at := none
    completed_at := none }

/-- `DatabaseManager.record_opinion`: `INSERT OR IGNORE` keyed on the UNIQUE
`docket_entry_id` column — insert if absent, leave the table untouched if a
row with that id already exists. -/
def record_opinion (L : Ledger) (op : Opinion) (now : Nat) : Ledger :=
  if L.any (fun r => r.docket_entry_id = op.docket_entry_id) then L
  else L ++ [new_row op now]

/-- `DatabaseManager.check_already_downloaded`: fetch the first row with the
given id and test `status == COMPLETED`. -/
def check_already_downloaded (L : Ledger) (id : String) : Bool :=
  match L.find? (fun r => r.docket_entry_id = id) with
  | some r => r.status = Status.completed
  | none => false

/-- Error marker written by the stale-download sweep
(`database.py:289-305`). -/
def stale_marker : String := "Download timeout - marked as failed"

/-- The WHERE clause of `cleanup_stale_downloads`: status DOWNLOADING and
`started_at` strictly older than the cutoff instant (a NULL `started_at`
fails the SQL comparison). -/
def is_stale (cutoff : Nat) (r : Row) : Bool :=
  (r.status = Status.downloading : Bool) &&
    match r.started_at with
    | some t => decide (t < cutoff)
    | none => false

/-- `DatabaseManager.cleanup_stale_downloads`: the single UPDATE
`SET status = FAILED, error_message = <marker> WHERE <is_stale>`, applied row
by row with a trace of the status writes. Note the source sets only these
two columns: attempts and `completed_at` are left untouched. -/
def cleanup_stale_downloads (L : Ledger) (cutoff : Nat) : Ledger × Trace :=
  (L.map fun r =>
      if is_stale cutoff r then
        { r with status := Status.failed, error_message := some stale_marker }
      else r,
   L.filterMap fun r =>
      if is_stale cutoff r then
        some (r.docket_entry_id, r.status, Status.failed)
      else none)

/-- Characters kept by the filter in `utils.safe_filename` (`utils.py:101`).
`str.isalnum` is modeled at ASCII scope. -/
def kept_char (c : Char) : Bool :=
  c.isAlphanum || c = ' ' || c = '-' || c = '_' || c = '.'

/-- One pass of Python `str.replace("__", "_")`: non-overlapping
occurrences, replaced left to right. -/
def replace_double_underscore : List Char → List Char
  | [] => []
  | [c] => [c]
  | a :: b :: rest =>
    if a = '_' ∧ b = '_' then '_' :: replace_double_underscore rest
    else a :: replace_double_underscore (b :: rest)

/-- Python `"__" in safe`. -/
def has_double_underscore : List Char → Bool
  | '_' :: '_' :: _ => true
  | _ :: rest => has_double_underscore rest
  | [] => false

/-- The `while "__" in safe:` loop of `utils.safe_filename`, with fuel.
Each pass strictly shortens a list that still has a double underscore, so
`l.length` fuel always reaches the fixpoint. -/
def squeeze_underscores : Nat → List Char → List Char
  | 0, l => l
  | fuel + 1, l =>
    if has_double_underscore l then
      squeeze_underscores fuel (replace_double_underscore l)
    else l

/-- Python `str.rstrip("._")`: drop the trailing run of dots and
underscores. -/
def rstrip_dot_underscore (l : List Char) : List Char :=
  (l.reverse.dropWhile fun c => c = '.' || c = '_').reverse

/-- `utils.safe_filename` (`utils.py:89-117`) at its default
`max_length=100`: keep alnum/space/dash/underscore/dot, spaces to
underscores, collapse repeated underscores, cap at 100 characters, strip
trailing dots/underscores, and fall back to "unnamed" when empty. -/
def safe_filename (text : String) : String :=
  let safe1 := text.toList.filter kept_char
  let safe2 := safe1.map fun c => if c = ' ' then '_' else c
  let safe3 := squeeze_underscores safe2.length safe2
  let safe4 := if safe3.length > 100 then safe3.take 100 else safe3
  let safe5 := rstrip_dot_underscore safe4
  if safe5.isEmpty then "unnamed" else String.mk safe5

/-- `models.Opinion.safe_filename` (`models.py:59-65`): docket number,
first eight characters of the docket entry id, and the title filtered to
alnum/space/dash/underscore, right-stripped of whitespace, capped at 100. -/
def Opinion.safe_filename (op : Opinion) : String :=
  let safe_title :=
    (((op.document_title.toList.filter fun c =>
        c.isAlphanum || c = ' ' || c = '-' || c = '_').reverse.dropWhile
          Char.isWhitespace).reverse).take 100
  op.docket_number ++ "_" ++ String.mk (op.docket_entry_id.toList.take 8) ++
    "_" ++ String.mk safe_title ++ ".pdf"

/-- Gregorian month lengths, as validated by `datetime.fromisoformat`. -/
def days_in_month (y m : Nat) : Nat :=
  if m = 2 then
    if (y % 4 = 0 && decide (y % 100 ≠ 0)) || y % 400 = 0 then 29 else 28
  else if m = 4 || m = 6 || m = 9 || m = 11 then 30 else 31

/-- Numeric value of a decimal digit character. -/
def digit_val (c : Char) : Nat := c.toNat - 48

/-- Does `datetime.fromisoformat` accept `s` (after `config.py`'s
`Z` → `+00:00` replacement)? Modeled as: a strict `YYYY-MM-DD` calendar
date, standing alone or followed by a `T`/space separator and a
time-of-day suffix whose internal validation is elided — the pipeline only
reaches this with date-only or well-formed datetime strings, where the
model and the source agree. -/
def valid_iso_date (s : String) : Bool :=
  match s.toList with
  | y1 :: y2 :: y3 :: y4 :: '-' :: m1 :: m2 :: '-' :: d1 :: d2 :: rest =>
    ([y1, y2, y3, y4, m1, m2, d1, d2].all Char.isDigit) &&
    (let y := ((digit_val y1 * 10 + digit_val y2) * 10 + digit_val y3) * 10 +
        digit_val y4
     let m := digit_val m1 * 10 + digit_val m2
     let d := digit_val d1 * 10 + digit_val d2
     1 ≤ m && m ≤ 12 && 1 ≤ d && d ≤ days_in_month y m) &&
    (rest.isEmpty || rest.head? = some 'T' || rest.head? = some ' ')
  | _ => false

/-- The `strftime("%Y-%m")` directory name `Settings.get_document_path`
derives from the filing date, or "unknown" when parsing fails
(`config.py:115-125`). For an accepted ISO string the year-month is its
first seven characters. -/
def year_month (filing_date : String) : String :=
  if valid_iso_date filing_date then String.mk (filing_date.toList.take 7)
  else "unknown"

/-- `Settings.get_document_path`: `<documents_dir>/<YYYY-MM>/<filename>`
(the mkdir side effect carries no data). -/
def get_document_path (documents_root filing_date filename : String) : String :=
  documents_root ++ "/" ++ year_month filing_date ++ "/" ++ filename

/-- The slice of `config.Settings` the downloader reads: the documents
directory and the global `skip_existing` flag consulted by
`_check_file_exists`. -/
structure Config where
  documents_root : String
  skip_existing : Bool

/-- The path `_save_file` and `_check_file_exists` both derive for an
opinion (`downloader.py:222-236` and `238-262`): year-month directory from
the filing date, `utils.safe_filename` of
`f"{docket_number}_{docket_entry_id}.pdf"`. -/
def doc_path (cfg : Config) (op : Opinion) : String :=
  get_document_path cfg.documents_root op.filing_date
    (safe_filename (op.docket_number ++ "_" ++ op.docket_entry_id ++ ".pdf"))

/-- The filesystem as the downloader observes it: byte size per path, with
0 encoding "absent or empty" — exactly the predicate
`file_path.exists() and file_path.stat().st_size > 0` tested by
`_check_file_exists`. -/
abbrev FS := String → Nat

/-- Outcome of `APIClient.download_file` as `_process_download` observes
it: an exception escaping the stream, or the byte string (only its length
matters downstream). -/
inductive DownloadResult where
  | raises (msg : String)
  | bytes (n : Nat)

/-- Per-task network oracle: the value `APIClient.get_document_url`
returns (`none` models its failure path) and the behavior of the
subsequent `APIClient.download_file` call. -/
structure TaskOutcome where
  url : Option String
  result : DownloadResult

/-- `ParallelDownloader._check_file_exists` (`downloader.py:238-262`): a
ledger status of COMPLETED short-circuits to true with no filesystem look;
otherwise, when the global `skip_existing` setting is on and the file at
the derived path is present and non-empty, the row is promoted to
COMPLETED with path and size and the check succeeds; otherwise false. -/
def check_file_exists (cfg : Config) (L : Ledger) (fs : FS) (op : Opinion)
    (now : Nat) : Bool × Ledger × Trace :=
  if check_already_downloaded L op.docket_entry_id then (true, L, [])
  else if cfg.skip_existing && decide (0 < fs (doc_path cfg op)) then
    let u := update_download_status L op.docket_entry_id Status.completed
      none (some (doc_path cfg op)) (some (fs (doc_path cfg op))) none now
    (true, u.1, u.2)
  else (false, L, [])

/-- Result of the preflight loop of `download_opinions`. -/
structure PreflightResult where
  ledger : Ledger
  trace : Trace
  skipped : Nat
  tasks : List Opinion

/-- The preflight loop of `download_opinions` (`downloader.py:70-88`) as
run with `skip_existing=True`: each opinion whose existence check succeeds
is counted skipped and written SKIPPED; the rest form the work queue in
order. -/
def preflight (cfg : Config) (fs : FS) (now : Nat) :
    List Opinion → Ledger → PreflightResult
  | [], L => ⟨L, [], 0, []⟩
  | op :: rest, L =>
    let c := check_file_exists cfg L fs op now
    if c.1 then
      let u := update_download_status c.2.1 op.docket_entry_id Status.skipped
        none none none none now
      let pr := preflight cfg fs now rest u.1
      ⟨pr.ledger, c.2.2 ++ u.2 ++ pr.trace, pr.skipped + 1, pr.tasks⟩
    else
      let pr := preflight cfg fs now rest c.2.1
      ⟨pr.ledger, c.2.2 ++ pr.trace, pr.skipped, op :: pr.tasks⟩

/-- Result of processing queued download tasks. `calls` lists the docket
entry id of the task on whose behalf each network request was issued. -/
structure ProcessResult where
  ledger : Ledger
  fs : FS
  trace : Trace
  calls : List String
  successful : Nat
  failed : Nat
  total_bytes : Nat

/-- `ParallelDownloader._process_download` (`downloader.py:149-220`):
DOWNLOADING write, URL resolution (one request), download (one request),
file save, COMPLETED write with url/path/size on success; every failure is
caught in the task and recorded as a FAILED write carrying the exception
text — an absent or empty resolved URL fails before the download request,
an empty body fails after it. -/
def process_download (cfg : Config) (oracle : Opinion → TaskOutcome)
    (L : Ledger) (fs : FS) (op : Opinion) (now : Nat) : ProcessResult :=
  let u1 := update_download_status L op.docket_entry_id Status.downloading
    none none none none now
  let o := oracle op
  match o.url with
  | none =>
    let u2 := update_download_status u1.1 op.docket_entry_id Status.failed
      none none none (some "Failed to get download URL") now
    ⟨u2.1, fs, u1.2 ++ u2.2, [op.docket_entry_id], 0, 1, 0⟩
  | some u =>
    if u = "" then
      let u2 := update_download_status u1.1 op.docket_entry_id Status.failed
        none none none (some "Failed to get download URL") now
      ⟨u2.1, fs, u1.2 ++ u2.2, [op.docket_entry_id], 0, 1, 0⟩
    else
      match o.result with
      | DownloadResult.raises m =>
        let u2 := update_download_status u1.1 op.docket_entry_id Status.failed
          none none none (some m) now
        ⟨u2.1, fs, u1.2 ++ u2.2, [op.docket_entry_id, op.docket_entry_id],
         0, 1, 0⟩
      | DownloadResult.bytes 0 =>
        let u2 := update_download_status u1.1 op.docket_entry_id Status.failed
          none none none (some "No data received") now
        ⟨u2.1, fs, u1.2 ++ u2.2, [op.docket_entry_id, op.docket_entry_id],
         0, 1, 0⟩
      | DownloadResult.bytes (n + 1) =>
        let path := doc_path cfg op
        let fs2 : FS := fun p => if p = path then n + 1 else fs p
        let u2 := update_download_status u1.1 op.docket_entry_id
          Status.completed (some u) (some path) (some (n + 1)) none now
        ⟨u2.1, fs2, u1.2 ++ u2.2, [op.docket_entry_id, op.docket_entry_id],
         1, 0, n + 1⟩

/-- The worker phase of `download_opinions`, linearized: tasks are drained
in queue order, each fully processed before the next (one legal schedule
of the cooperative worker pool; per-record effects do not depend on the
interleaving since each record is owned by one task). -/
def process_all (cfg : Config) (oracle : Opinion → TaskOutcome) (now : Nat) :
    List Opinion → Ledger → FS → ProcessResult
  | [], L, fs => ⟨L, fs, [], [], 0, 0, 0⟩
  | op :: rest, L, fs =>
    let p := process_download cfg oracle L fs op now
    let q := process_all cfg oracle now rest p.ledger p.fs
    ⟨q.ledger, q.fs, p.trace ++ q.trace, p.calls ++ q.calls,
     p.successful + q.successful, p.failed + q.failed,
     p.total_bytes + q.total_bytes⟩

/-- The coordinator's aggregate counters (`ParallelDownloader.stats`,
zeroed in `__init__` and never reset between runs of one instance). -/
structure Stats where
  successful : Nat
  failed : Nat
  skipped : Nat
  total_bytes : Nat
deriving DecidableEq, Repr

/-- Result of one `download_opinions` run. -/
structure RunResult where
  ledger : Ledger
  fs : FS
  stats : Stats
  trace : Trace
  calls : List String

/-- `ParallelDownloader.download_opinions` (`downloader.py:48-123`): the
preflight loop (only when `skip_existing` is passed true), then the worker
pool over the surviving queue. `s0` is the instance's counter state at
entry. -/
def download_opinions (cfg : Config) (oracle : Opinion → TaskOutcome)
    (opinions : List Opinion) (skip_existing : Bool)
    (L : Ledger) (fs : FS) (s0 : Stats) (now : Nat) : RunResult :=
  let pre := if skip_existing then preflight cfg fs now opinions L
             else ⟨L, [], 0, opinions⟩
  let pr := process_all cfg oracle now pre.tasks pre.ledger fs
  ⟨pr.ledger, pr.fs,
   ⟨s0.successful + pr.successful, s0.failed + pr.failed,
    s0.skipped + pre.skipped, s0.total_bytes + pr.total_bytes⟩,
   pre.trace ++ pr.trace, pr.calls⟩

/-- The ledger-touching operations the pipeline performs (`scraper.py`:
`cleanup_stale_downloads` once at startup, `record_opinion` seeding per
fetched opinion, and `download_opinions` runs — including the ones issued
by `retry_failed_downloads` with `skip_existing=False`). -/
inductive PipelineOp where
  | seed (op : Opinion) (now : Nat)
  | run (opinions : List Opinion) (skip_existing : Bool)
        (oracle : Opinion → TaskOutcome) (s0 : Stats) (now : Nat)
  | reconcile (cutoff : Nat)

/-- Effect of one pipeline operation on ledger and filesystem, with its
trace of ledger status writes. -/
def apply_op (cfg : Config) (L : Ledger) (fs : FS) :
    PipelineOp → Ledger × FS × Trace
  | PipelineOp.seed op now => (record_opinion L op now, fs, [])
  | PipelineOp.run ops sk oracle s0 now =>
    let r := download_opinions cfg oracle ops sk L fs s0 now
    (r.ledger, r.fs, r.trace)
  | PipelineOp.reconcile cutoff =>
    let c := cleanup_stale_downloads L cutoff
    (c.1, fs, c.2)

/-- A whole pipeline: any sequence of the above operations, traces
concatenated in order. -/
def apply_ops (cfg : Config) : List PipelineOp → Ledger → FS →
    Ledger × FS × Trace
  | [], L, fs => (L, fs, [])
  | p :: rest, L, fs =>
    let a := apply_op cfg L fs p
    let b := apply_ops cfg rest a.1 a.2.1
    (b.1, b.2.1, a.2.2 ++ b.2.2)

/-- `api_client.RateLimiter` (`api_client.py:236-273`): configuration and
mutable state (`tokens`, `last_update`), over exact rationals. -/
structure RateLimiter where
  calls : ℚ
  period : ℚ
  max_burst : ℚ
  tokens : ℚ
  last_update : ℚ

/-- `RateLimiter.__init__`: a full bucket and a clock read at creation. -/
def mk_rate_limiter (calls period max_burst now : ℚ) : RateLimiter :=
  ⟨calls, period, max_burst, max_burst, now⟩

/-- `RateLimiter.acquire` (`api_client.py:255-273`): the
`while self.tokens <= 0` loop refills proportionally to elapsed time
(capped at `max_burst`); if the bucket is still empty it sleeps
`max(0.01, (1 - tokens) * (period / calls))` and re-checks; on exit one
token is consumed. Sleeping is modeled as advancing the clock by exactly
the requested duration, and each sleep is recorded in order. Fuel bounds
the loop, which the source leaves unbounded. -/
def acquire_loop (rl : RateLimiter) (now : ℚ) :
    Nat → List ℚ × RateLimiter
  | 0 => ([], rl)
  | fuel + 1 =>
    if rl.tokens ≤ 0 then
      let elapsed := now - rl.last_update
      let tokens2 :=
        min rl.max_burst (rl.tokens + elapsed * (rl.calls / rl.period))
      let rl2 := { rl with tokens := tokens2, last_update := now }
      if tokens2 ≤ 0 then
        let wait := max (1 / 100) ((1 - tokens2) * (rl.period / rl.calls))
        let st := acquire_loop rl2 (now + wait) fuel
        (wait :: st.1, st.2)
      else ([], { rl2 with tokens := tokens2 - 1 })
    else ([], { rl with tokens := rl.tokens - 1 })

/-- `n` consecutive `acquire()` calls at one fixed instant (no elapsed
time between them), with all sleeps concatenated in order. -/
def acquire_seq (fuel : Nat) (now : ℚ) :
    Nat → RateLimiter → List ℚ × RateLimiter
  | 0, rl => ([], rl)
  | n + 1, rl =>
    let a := acquire_loop rl now fuel
    let b := acquire_seq fuel now n a.2
    (a.1 ++ b.1, b.2)

/-- An exception escaping one HTTP attempt, as the tenacity decorator
classifies it: `retryable` is whether
`retry_if_exception_type((aiohttp.ClientError, asyncio.TimeoutError))`
matches it, `msg` its stringification (the per-type message prefixes the
`except` clauses add — "Timeout: ", "Client error: ", "Unexpected
error: " — are folded into the oracle's text). -/
structure RequestExn where
  retryable : Bool
  msg : String
deriving DecidableEq, Repr

/-- `models.APIResponse`, restricted to the fields `_make_request`
fills. -/
structure APIResponse where
  success : Bool
  data : Option String
  status_code : Option Nat
  error : Option String
deriving DecidableEq, Repr

/-- What the network does on attempt `i` (0-based): raise an exception or
deliver an HTTP status with a body. -/
inductive AttemptBehavior where
  | raises (retryable : Bool) (msg : String)
  | http (status_code : Nat) (body : String)
deriving DecidableEq, Repr

/-- The body of `APIClient._make_request` (`api_client.py:95-137`) for one
attempt: an HTTP response of any status code becomes an `APIResponse` with
`success = status < 400` (4xx/5xx are plain failed responses) — and,
decisive for the retry claim, every exception is caught by the three
`except` clauses and converted to a failed `APIResponse`, so the body
never lets an exception reach the decorator. -/
def make_request_body (net : Nat → AttemptBehavior) (i : Nat) :
    Except RequestExn APIResponse :=
  match net i with
  | AttemptBehavior.raises _ m => Except.ok ⟨false, none, none, some m⟩
  | AttemptBehavior.http s body =>
    Except.ok ⟨decide (s < 400), some body, some s,
      if s < 400 then none else some ("HTTP " ++ toString s)⟩

/-- tenacity `wait_exponential(multiplier=1, min=2, max=10)`: backoff
slept after failed attempt number `n` (1-based). -/
def backoff_wait (n : Nat) : ℚ := min 10 (max 2 (2 ^ (n - 1)))

/-- The tenacity `@retry(stop=stop_after_attempt(K), wait=...,
retry=retry_if_exception_type(...))` combinator: run the body; a normal
return is final; an exception matching the retry predicate is retried
after the backoff sleep until `K` attempts have run, then re-raised; a
non-matching exception is re-raised at once. Returns attempts used,
sleeps performed, and the outcome. `i` is the 0-based attempt index; the
fuel starts at `K`, which the recursion never exhausts. -/
def tenacity_go (body : Nat → Except RequestExn APIResponse)
    (stop_attempts i : Nat) :
    Nat → Nat × List ℚ × Except RequestExn APIResponse
  | 0 => (0, [], body i)
  | fuel + 1 =>
    match body i with
    | Except.ok r => (1, [], Except.ok r)
    | Except.error e =>
      if e.retryable && decide (i + 1 < stop_attempts) then
        let rest := tenacity_go body stop_attempts (i + 1) fuel
        (rest.1 + 1, backoff_wait (i + 1) :: rest.2.1, rest.2.2)
      else (1, [], Except.error e)

/-- `APIClient._make_request` with its decorator configuration
`stop_after_attempt(3)`. -/
def make_request (net : Nat → AttemptBehavior) :
    Nat × List ℚ × Except RequestExn APIResponse :=
  tenacity_go (make_request_body net) 3 0 3

/-- The §4.3 state machine exactly as the specification draws it:
PENDING→DOWNLOADING, DOWNLOADING→COMPLETED, DOWNLOADING→FAILED,
FAILED→DOWNLOADING, PENDING|FAILED→SKIPPED. Written from the spec for
comparison against the transitions the code actually performs. -/
def spec_step : Status → Status → Bool
  | Status.pending, Status.downloading => true
  | Status.downloading, Status.completed => true
  | Status.downloading, Status.failed => true
  | Status.failed, Status.downloading => true
  | Status.pending, Status.skipped => true
  | Status.failed, Status.skipped => true
  | _, _ => false

/-- The transition machine the code actually stays inside: §4.3 extended
with dispatch to DOWNLOADING from any status, pre-flight filesystem
promotion to COMPLETED from any status, and the pre-flight
COMPLETED→SKIPPED write. -/
def extended_step (a b : Status) : Bool :=
  spec_step a b || b = Status.downloading || b = Status.completed ||
    (a = Status.completed && b = Status.skipped)

/-- The status column of the first row carrying a given id (what SQL
`SELECT ... WHERE docket_entry_id = ?` with `fetchone` observes). -/
def row_status (L : Ledger) (id : String) : Option Status :=
  (L.find? fun r => r.docket_entry_id = id).map Row.status

section Helpers

lemma apply_update_docket_entry_id (st : Status) (url path : Option String)
    (size : Option Nat) (err : Option String) (now : Nat) (r : Row) :
    (apply_update st url path size err now r).docket_entry_id =
      r.docket_entry_id := rfl

lemma update_row_fn_id (id : String) (st : Status) (url path : Option String)
    (size : Option Nat) (err : Option String) (now : Nat) (r : Row) :
    ((if r.docket_entry_id = id then apply_update st url path size err now r
      else r)).docket_entry_id = r.docket_entry_id := by
  split <;> rfl

lemma update_ids (L : Ledger) (id : String) (st : Status)
    (url path : Option String) (size : Option Nat) (err : Option String)
    (now : Nat) :
    ((update_download_status L id st url path size err now).1).map
        Row.docket_entry_id = L.map Row.docket_entry_id := by
  unfold update_download_status
  rw [List.map_map]
  exact List.map_congr_left fun r _ => update_row_fn_id id st url path size err now r

/-- Any row of the updated table that carries the updated id has the
written status. -/
lemma mem_update_status {L : Ledger} {id : String} {st : Status}
    {url path : Option String} {size : Option Nat} {err : Option String}
    {now : Nat} {r2 : Row}
    (h : r2 ∈ (update_download_status L id st url path size err now).1)
    (hid : r2.docket_entry_id = id) : r2.status = st := by
  unfold update_download_status at h
  rcases List.mem_map.mp h with ⟨r, _, hr⟩
  by_cases hcase : r.docket_entry_id = id
  · rw [if_pos hcase] at hr
    rw [← hr]; rfl
  · rw [if_neg hcase] at hr
    rw [← hr] at hid
    exact absurd hid hcase

/-- Every trace entry of one UPDATE records the updated id, the prior
status of some matching row, and the written status. -/
lemma update_trace_mem {L : Ledger} {id : String} {st : Status}
    {url path : Option String} {size : Option Nat} {err : Option String}
    {now : Nat} {e : String × Status × Status}
    (h : e ∈ (update_download_status L id st url path size err now).2) :
    ∃ r ∈ L, r.docket_entry_id = id ∧ e = (id, r.status, st) := by
  unfold update_download_status at h
  rcases List.mem_filterMap.mp h with ⟨r, hrL, hr⟩
  by_cases hcase : r.docket_entry_id = id
  · rw [if_pos hcase] at hr
    exact ⟨r, hrL, hcase, (Option.some.inj hr).symm⟩
  · rw [if_neg hcase] at hr
    exact absurd hr (by simp)

/-- `find?` commutes with a `map` whose function preserves the
predicate. -/
lemma find?_map_pres {g : Row → Row} {p : Row → Bool}
    (hp : ∀ r, p (g r) = p r) (L : Ledger) :
    (L.map g).find? p = (L.find? p).map g := by
  have hpg : p ∘ g = p := funext hp
  rw [List.find?_map, hpg]

/-- An UPDATE keyed on a different id does not move the observed status of
a record. -/
lemma row_status_update_other {L : Ledger} {id id2 : String} {st : Status}
    {url path : Option String} {size : Option Nat} {err : Option String}
    {now : Nat} (hne : id ≠ id2) :
    row_status (update_download_status L id2 st url path size err now).1 id =
      row_status L id := by
  unfold row_status update_download_status
  rw [find?_map_pres (fun r => by
    simp only [update_row_fn_id]) L]
  cases hf : L.find? fun r => r.docket_entry_id = id with
  | none => rfl
  | some r =>
    have hid : r.docket_entry_id = id := by
      have := List.find?_some hf
      simpa using this
    simp only [Option.map_some']
    rw [if_neg (fun h2 => hne (by rw [← hid, h2]))]

/-- An UPDATE keyed on a present id moves the observed status to the
written one. -/
lemma row_status_update_self {L : Ledger} {id : String} {st : Status}
    {url path : Option String} {size : Option Nat} {err : Option String}
    {now : Nat} {s : Status} (h : row_status L id = some s) :
    row_status (update_download_status L id st url path size err now).1 id =
      some st := by
  unfold row_status update_download_status
  rw [find?_map_pres (fun r => by simp only [update_row_fn_id]) L]
  unfold row_status at h
  cases hf : L.find? fun r => r.docket_entry_id = id with
  | none => rw [hf] at h; simp at h
  | some r =>
    have hid : r.docket_entry_id = id := by
      have := List.find?_some hf
      simpa using this
    simp only [Option.map_some', hid, if_true]
    rfl

/-- In a table whose id column is Nodup, any member row is the first match
for its own id. -/
lemma find?_eq_of_nodup :
    ∀ {L : Ledger}, (L.map Row.docket_entry_id).Nodup → ∀ {r : Row},
      r ∈ L →
      L.find? (fun x => x.docket_entry_id = r.docket_entry_id) = some r := by
  intro L
  induction L with
  | nil => intro _ r hr; cases hr
  | cons a t ih =>
    intro hN r hr
    rw [List.map_cons, List.nodup_cons] at hN
    rcases List.mem_cons.mp hr with h | h
    · subst h
      exact List.find?_cons_of_pos t (by simp)
    · have hne : ¬a.docket_entry_id = r.docket_entry_id := by
        intro heq
        exact hN.1 (heq ▸ List.mem_map.mpr ⟨r, h, rfl⟩)
      rw [List.find?_cons_of_neg t (by simpa using hne)]
      exact ih hN.2 h

/-- With a Nodup id column, every member row matching an id has the status
`check_already_downloaded`-style `find?` reports for that id. -/
lemma status_of_mem_of_nodup {L : Ledger} {id : String} {s : Status}
    (hN : (L.map Row.docket_entry_id).Nodup)
    (hfind : row_status L id = some s) {r : Row} (hr : r ∈ L)
    (hid : r.docket_entry_id = id) : r.status = s := by
  unfold row_status at hfind
  have := find?_eq_of_nodup hN hr
  rw [hid] at this
  rw [this] at hfind
  simpa using hfind

/-- An UPDATE whose id matches no row leaves the table unchanged and
records no write. -/
lemma update_no_match {L : Ledger} {id : String} (st : Status)
    (url path : Option String) (size : Option Nat) (err : Option String)
    (now : Nat) (h : ∀ r ∈ L, r.docket_entry_id ≠ id) :
    update_download_status L id st url path size err now = (L, []) := by
  unfold update_download_status
  have h1 : (L.map fun r =>
      if r.docket_entry_id = id then apply_update st url path size err now r
      else r) = L := by
    conv_rhs => rw [← List.map_id L]
    exact List.map_congr_left fun r hr => by rw [if_neg (h r hr)]; rfl
  have h2 : (L.filterMap fun r =>
      if r.docket_entry_id = id then some (id, r.status, st) else none) =
      ([] : Trace) :=
    List.filterMap_eq_nil_iff.mpr fun r hr => by rw [if_neg (h r hr)]
  rw [h1, h2]

end Helpers

section WorkedInstances

/-- A concrete opinion used by the worked instances below. -/
def sample_opinion : Opinion :=
  { docket_entry_id := "abcdef12-3456-7890-abcd-ef1234567890"
    docket_number := "12345-67"
    case_caption := "Smith v. Commissioner"
    document_title := "Order of Dismissal"
    filing_date := "2023-05-17"
    judge := none
    number_of_pages := 3 }

/-- A second concrete opinion with a distinct identity. -/
def sample_opinion_b : Opinion :=
  { docket_entry_id := "00000000-1111-2222-3333-444444444444"
    docket_number := "89-10"
    case_caption := "Doe v. Commissioner"
    document_title := "Memorandum Opinion"
    filing_date := "2021-11-03"
    judge := some "Judge A"
    number_of_pages := 12 }

/-- A freshly seeded PENDING row for `sample_opinion`. -/
def sample_row_a : Row := new_row sample_opinion 0

end WorkedInstances

/-- C9: ledger seeding (`record_opinion`, the spec's `upsertPending`) is
idempotent: seeding the same document identity twice — even at a different
timestamp — leaves the table exactly as one seeding does; the second call
inserts nothing and modifies no existing row. -/
theorem c9_record_opinion_idempotent (L : Ledger) (op : Opinion)
    (now now2 : Nat) :
    record_opinion (record_opinion L op now) op now2 =
      record_opinion L op now := by
  unfold record_opinion
  by_cases h : L.any (fun r => r.docket_entry_id = op.docket_entry_id) = true
  · simp only [if_pos h]
  · simp only [if_neg h]
    have hh : (L ++ [new_row op now]).any
        (fun r => r.docket_entry_id = op.docket_entry_id) = true := by
      rw [List.any_append]
      simp [new_row]
    simp only [if_pos hh]

/-- C10: `transition` (`update_download_status`) on a document identity
absent from the ledger is a silent no-op: the function is total (raises
nothing), leaves every row unchanged, and records no status write. -/
theorem c10_transition_absent_id_noop (L : Ledger) (id : String)
    (st : Status) (url path : Option String) (size : Option Nat)
    (err : Option String) (now : Nat)
    (h : ∀ r ∈ L, r.docket_entry_id ≠ id) :
    update_download_status L id st url path size err now = (L, []) :=
  update_no_match st url path size err now h

/-- Witness: the absent-id no-op at a concrete one-row ledger. -/
theorem c10_transition_absent_id_noop_witness :
    update_download_status [sample_row_a] "not-a-known-id" Status.completed
      none none (some 4) none 9 = ([sample_row_a], []) :=
  c10_transition_absent_id_noop [sample_row_a] "not-a-known-id"
    Status.completed none none (some 4) none 9 (by decide)

/-- The ledger row for the C5 instances: mid-download, one attempt, a
previously recorded file size of 5. -/
def c5_row : Row :=
  { new_row sample_opinion 0 with
      status := Status.downloading
      attempts := 1
      file_size := some 5
      started_at := some 0 }

/-- C5 counterexample: a `transition` to COMPLETED that supplies
`file_size = 0` does not write the supplied size — the truthiness guard
`if file_size:` in `update_download_status` drops it and the row keeps its
previous value 5, so not every supplied attribute value is written. -/
theorem c5_counterexample :
    ((update_download_status [c5_row] sample_opinion.docket_entry_id
        Status.completed none none (some 0) none 7).1.map Row.file_size) =
      [some 5] ∧ some (5 : Nat) ≠ some (0 : Nat) := by decide

/-- C5 (amended): `transition` on an existing record increments the
attempt count by exactly one and sets the status, but applies each
supplied attribute (url, path, size, error) only when its value is truthy
— a supplied `None`, empty string, or zero is discarded; it sets
`started_at` exactly when the target status is DOWNLOADING and
`completed_at` exactly when it is COMPLETED or FAILED, and leaves every
row whose id differs untouched: one write scoped to the matching row. -/
theorem c5_amended_transition (L : Ledger) (id : String) (st : Status)
    (url path : Option String) (size : Option Nat) (err : Option String)
    (now : Nat) (i : Nat) (r : Row) (h : L[i]? = some r) :
    (update_download_status L id st url path size err now).1[i]? =
      some (if r.docket_entry_id = id then
        { r with
            status := st
            attempts := r.attempts + 1
            download_url := if truthy_str url then url else r.download_url
            file_path := if truthy_str path then path else r.file_path
            file_size := if truthy_nat size then size else r.file_size
            error_message := if truthy_str err then err else r.error_message
            started_at :=
              if st = Status.downloading then some now else r.started_at
            completed_at :=
              if st = Status.completed ∨ st = Status.failed then some now
              else r.completed_at }
        else r) := by
  unfold update_download_status
  rw [List.getElem?_map, h]
  rfl

/-- Witness: the characterized transition applied at the C5 row, target
COMPLETED with a truthy url and path and an untruthy size. -/
theorem c5_amended_transition_witness :
    (update_download_status [c5_row] sample_opinion.docket_entry_id
        Status.completed (some "https://host/doc.pdf") (some "p.pdf")
        (some 0) none 7).1[0]? =
      some (if c5_row.docket_entry_id = sample_opinion.docket_entry_id then
        { c5_row with
            status := Status.completed
            attempts := c5_row.attempts + 1
            download_url := if truthy_str (some "https://host/doc.pdf") then
              some "https://host/doc.pdf" else c5_row.download_url
            file_path := if truthy_str (some "p.pdf") then some "p.pdf"
              else c5_row.file_path
            file_size := if truthy_nat (some 0) then some 0
              else c5_row.file_size
            error_message := if truthy_str none then none
              else c5_row.error_message
            started_at := if Status.completed = Status.downloading
              then some 7 else c5_row.started_at
            completed_at := if Status.completed = Status.completed ∨
                Status.completed = Status.failed then some 7
              else c5_row.completed_at }
        else c5_row) :=
  c5_amended_transition [c5_row] sample_opinion.docket_entry_id
    Status.completed (some "https://host/doc.pdf") (some "p.pdf") (some 0)
    none 7 0 c5_row rfl

/-- The character set a produced filename can contain: `safe_filename`
output after space rewriting. -/
def fname_char (c : Char) : Bool :=
  c.isAlphanum || c = '-' || c = '_' || c = '.'

/-- A character of one replacement pass was in the input. -/
lemma mem_replace_du : ∀ (l : List Char) (c : Char),
    c ∈ replace_double_underscore l → c ∈ l
  | [], c, h => by simp [replace_double_underscore] at h
  | [a], c, h => by simpa [replace_double_underscore] using h
  | a :: b :: rest, c, h => by
    by_cases hab : a = '_' ∧ b = '_'
    · simp only [replace_double_underscore, if_pos hab] at h
      rcases List.mem_cons.mp h with h1 | h1
      · rw [h1, ← hab.1]
        exact List.mem_cons_self a (b :: rest)
      · exact List.mem_cons_of_mem a
          (List.mem_cons_of_mem b (mem_replace_du rest c h1))
    · simp only [replace_double_underscore, if_neg hab] at h
      rcases List.mem_cons.mp h with h1 | h1
      · rw [h1]; exact List.mem_cons_self a (b :: rest)
      · exact List.mem_cons_of_mem a (mem_replace_du (b :: rest) c h1)

/-- A character surviving the squeeze loop was in the input. -/
lemma mem_squeeze : ∀ (fuel : Nat) (l : List Char) (c : Char),
    c ∈ squeeze_underscores fuel l → c ∈ l
  | 0, _, _, h => h
  | fuel + 1, l, c, h => by
    simp only [squeeze_underscores] at h
    split at h
    · exact mem_replace_du l c (mem_squeeze fuel _ c h)
    · exact h

/-- A character surviving the right strip was in the input. -/
lemma mem_rstrip {l : List Char} {c : Char}
    (h : c ∈ rstrip_dot_underscore l) : c ∈ l := by
  unfold rstrip_dot_underscore at h
  rw [List.mem_reverse] at h
  have h2 := (List.dropWhile_sublist _).subset h
  rwa [List.mem_reverse] at h2

/-- The right strip never lengthens. -/
lemma length_rstrip_le (l : List Char) :
    (rstrip_dot_underscore l).length ≤ l.length := by
  unfold rstrip_dot_underscore
  rw [List.length_reverse]
  calc (List.dropWhile _ l.reverse).length
      ≤ l.reverse.length := (List.dropWhile_sublist _).length_le
    _ = l.length := List.length_reverse l

/-- Every character `safe_filename` emits is alphanumeric, a dash, an
underscore, or a dot. -/
lemma safe_filename_chars (t : String) :
    ∀ c ∈ (safe_filename t).toList, fname_char c = true := by
  set safe1 := t.toList.filter kept_char with e1
  set safe2 := safe1.map (fun c => if c = ' ' then '_' else c) with e2
  set safe3 := squeeze_underscores safe2.length safe2 with e3
  set safe4 := if safe3.length > 100 then safe3.take 100 else safe3 with e4
  set safe5 := rstrip_dot_underscore safe4 with e5
  have hsf : safe_filename t =
      if safe5.isEmpty then "unnamed" else String.mk safe5 := rfl
  rw [hsf]
  split
  · have hall : ∀ x ∈ ("unnamed".toList), fname_char x = true := by decide
    exact hall
  · intro c hc
    have h4m : c ∈ safe4 :=
      mem_rstrip (show c ∈ rstrip_dot_underscore safe4 from hc)
    have h3m : c ∈ safe3 := by
      by_cases hlen : safe3.length > 100
      · rw [e4, if_pos hlen] at h4m
        exact List.take_subset 100 safe3 h4m
      · rwa [e4, if_neg hlen] at h4m
    have h2m : c ∈ safe2 := mem_squeeze safe2.length safe2 c (e3 ▸ h3m)
    rcases List.mem_map.mp (e2 ▸ h2m) with ⟨c0, hc0, hmap⟩
    have hk := List.of_mem_filter (e1 ▸ hc0)
    by_cases hsp : c0 = ' '
    · rw [← hmap, if_pos hsp]; decide
    · rw [← hmap, if_neg hsp]
      simp only [kept_char, Bool.or_eq_true, decide_eq_true_eq] at hk
      simp only [fname_char, Bool.or_eq_true, decide_eq_true_eq]
      rcases hk with ((((h | h) | h) | h) | h)
      · exact Or.inl (Or.inl (Or.inl h))
      · exact absurd h hsp
      · exact Or.inl (Or.inl (Or.inr h))
      · exact Or.inl (Or.inr h)
      · exact Or.inr h

/-- `safe_filename` emits at most 100 characters. -/
lemma safe_filename_length (t : String) : (safe_filename t).length ≤ 100 := by
  set safe1 := t.toList.filter kept_char with e1
  set safe2 := safe1.map (fun c => if c = ' ' then '_' else c) with e2
  set safe3 := squeeze_underscores safe2.length safe2 with e3
  set safe4 := if safe3.length > 100 then safe3.take 100 else safe3 with e4
  set safe5 := rstrip_dot_underscore safe4 with e5
  have hsf : safe_filename t =
      if safe5.isEmpty then "unnamed" else String.mk safe5 := rfl
  rw [hsf]
  split
  · decide
  · show safe5.length ≤ 100
    have h4l : safe4.length ≤ 100 := by
      by_cases hlen : safe3.length > 100
      · rw [e4, if_pos hlen, List.length_take]
        exact min_le_left 100 _
      · rw [e4, if_neg hlen]
        omega
    exact le_trans (e5 ▸ length_rstrip_le safe4) h4l

/-- C8 counterexample: the produced path ignores the document title and
uses the full docket entry id, so it differs from the claimed
docket + first-8-of-identity + sanitized-title filename (which is what the
unused `Opinion.safe_filename` property would build). -/
theorem c8_counterexample :
    doc_path ⟨"data/documents", true⟩ sample_opinion =
      "data/documents/2023-05/12345-67_abcdef12-3456-7890-abcd-ef1234567890.pdf" ∧
    Opinion.safe_filename sample_opinion =
      "12345-67_abcdef12_Order of Dismissal.pdf" ∧
    doc_path ⟨"data/documents", true⟩ sample_opinion ≠
      "data/documents" ++ "/" ++ year_month sample_opinion.filing_date ++
        "/" ++ Opinion.safe_filename sample_opinion := by
  refine ⟨by decide, by decide, by decide⟩

/-- C8 (amended): every successfully downloaded document is stored at
`<documents_root>/<YYYY-MM>/<f>`, where YYYY-MM derives from the filing
date ("unknown" when it does not parse) and
`f = safe_filename(docket_number + "_" + docket_entry_id + ".pdf")` — the
full identity, no title fragment — with `safe_filename` keeping only
alnum/space/dash/underscore/dot, rewriting spaces to underscores,
collapsing underscore runs, capping at 100 characters and stripping
trailing dots/underscores; consequently the filename consists of at most
100 characters, each alphanumeric, dash, underscore, or dot. -/
theorem c8_amended_document_path (cfg : Config) (op : Opinion) :
    doc_path cfg op =
      cfg.documents_root ++ "/" ++ year_month op.filing_date ++ "/" ++
        safe_filename
          (op.docket_number ++ "_" ++ op.docket_entry_id ++ ".pdf") ∧
    (safe_filename
        (op.docket_number ++ "_" ++ op.docket_entry_id ++ ".pdf")).toList.all
      fname_char = true ∧
    (safe_filename
        (op.docket_number ++ "_" ++ op.docket_entry_id ++ ".pdf")).length
      ≤ 100 :=
  ⟨rfl, List.all_eq_true.mpr (safe_filename_chars _), safe_filename_length _⟩

/-- Each processed task is scored exactly once: successful or failed. -/
lemma process_download_one (cfg : Config) (oracle : Opinion → TaskOutcome)
    (L : Ledger) (fs : FS) (op : Opinion) (now : Nat) :
    (process_download cfg oracle L fs op now).successful +
      (process_download cfg oracle L fs op now).failed = 1 := by
  simp only [process_download]
  cases h : (oracle op).url with
  | none => rfl
  | some u =>
    dsimp only
    by_cases hu : u = ""
    · rw [if_pos hu]
      rfl
    · rw [if_neg hu]
      cases h2 : (oracle op).result with
      | raises m => rfl
      | bytes n => cases n with
        | zero => rfl
        | succ k => rfl

/-- The worker phase scores one outcome per queued task. -/
lemma process_all_count (cfg : Config) (oracle : Opinion → TaskOutcome)
    (now : Nat) : ∀ (ts : List Opinion) (L : Ledger) (fs : FS),
    (process_all cfg oracle now ts L fs).successful +
      (process_all cfg oracle now ts L fs).failed = ts.length := by
  intro ts
  induction ts with
  | nil => intro L fs; rfl
  | cons op rest ih =>
    intro L fs
    simp only [process_all]
    rw [List.length_cons]
    have hp := process_download_one cfg oracle L fs op now
    have hq := ih (process_download cfg oracle L fs op now).ledger
      (process_download cfg oracle L fs op now).fs
    omega

/-- The preflight loop partitions its input: skipped count plus surviving
queue length equals the number of records considered. -/
lemma preflight_count (cfg : Config) (fs : FS) (now : Nat) :
    ∀ (ops : List Opinion) (L : Ledger),
    (preflight cfg fs now ops L).skipped +
      (preflight cfg fs now ops L).tasks.length = ops.length := by
  intro ops
  induction ops with
  | nil => intro L; rfl
  | cons op rest ih =>
    intro L
    simp only [preflight]
    by_cases hc : (check_file_exists cfg L fs op now).1 = true
    · rw [if_pos hc]
      rw [List.length_cons]
      have h2 := ih (update_download_status
        (check_file_exists cfg L fs op now).2.1 op.docket_entry_id
        Status.skipped none none none none now).1
      dsimp only
      omega
    · rw [if_neg hc]
      rw [List.length_cons, List.length_cons]
      have h2 := ih (check_file_exists cfg L fs op now).2.1
      dsimp only
      omega

/-- C7 (amended): the coordinator's counters are cumulative over the
instance's lifetime: one run over `opinions` adds exactly
`opinions.length` to `successful + failed + skipped`, each record scored
in exactly one of the three; for a freshly constructed coordinator
(counters zero) a first run therefore satisfies the claimed equation. -/
theorem c7_amended_stats_cumulative (cfg : Config)
    (oracle : Opinion → TaskOutcome) (opinions : List Opinion)
    (skip_existing : Bool) (L : Ledger) (fs : FS) (s0 : Stats) (now : Nat) :
    (download_opinions cfg oracle opinions skip_existing L fs s0
        now).stats.successful +
      (download_opinions cfg oracle opinions skip_existing L fs s0
        now).stats.failed +
      (download_opinions cfg oracle opinions skip_existing L fs s0
        now).stats.skipped =
      s0.successful + s0.failed + s0.skipped + opinions.length := by
  simp only [download_opinions]
  by_cases hsk : skip_existing = true
  · rw [if_pos hsk]
    have h1 := preflight_count cfg fs now opinions L
    have h2 := process_all_count cfg oracle now
      (preflight cfg fs now opinions L).tasks
      (preflight cfg fs now opinions L).ledger fs
    omega
  · rw [if_neg hsk]
    dsimp only
    have h2 := process_all_count cfg oracle now opinions L fs
    omega

/-- The configuration, filesystem, seeded ledger, and never-consulted
network oracle of the C7 counterexample. -/
def c7_cfg : Config := ⟨"data/documents", true⟩

/-- A filesystem on which every path is a non-empty file of 5 bytes. -/
def c7_fs : FS := fun _ => 5

/-- The C7 ledger: `sample_opinion` freshly seeded PENDING. -/
def c7_ledger : Ledger := [new_row sample_opinion 0]

/-- An oracle that is never consulted in the C7 scenario. -/
def c7_oracle : Opinion → TaskOutcome :=
  fun _ => ⟨none, DownloadResult.raises "unused"⟩

/-- First run of one coordinator instance: skips the record. -/
def c7_run1 : RunResult :=
  download_opinions c7_cfg c7_oracle [sample_opinion] true c7_ledger c7_fs
    ⟨0, 0, 0, 0⟩ 1

/-- Second run of the same instance: its counters carry over. -/
def c7_run2 : RunResult :=
  download_opinions c7_cfg c7_oracle [sample_opinion] true c7_run1.ledger
    c7_run1.fs c7_run1.stats 2

/-- C7 counterexample: the second run of the same coordinator instance
considers 1 record, yet its reported stats sum to 2 — the counters are
never reset between runs (`scraper.py` reuses one instance per period), so
"successful + failed + skipped = records considered" fails for any run
after the first. -/
theorem c7_counterexample :
    c7_run2.stats.successful + c7_run2.stats.failed +
      c7_run2.stats.skipped = 2 ∧
    [sample_opinion].length = 1 ∧ (2 : Nat) ≠ 1 := by
  refine ⟨by decide, by decide, by decide⟩

/-- A ledger-COMPLETED `row_status` makes `check_already_downloaded`
answer true. -/
lemma check_of_row_status {L : Ledger} {id : String}
    (h : row_status L id = some Status.completed) :
    check_already_downloaded L id = true := by
  unfold check_already_downloaded
  unfold row_status at h
  cases hf : L.find? (fun r => r.docket_entry_id = id) with
  | none => rw [hf] at h; simp at h
  | some r =>
    rw [hf] at h
    simp only [Option.map_some', Option.some.injEq] at h
    simp [h]

/-- The pre-flight check for one opinion does not move the observed status
of any other document. -/
lemma row_status_check_other (cfg : Config) {L : Ledger} (fs : FS)
    (op : Opinion) (now : Nat) {x : String}
    (hne : x ≠ op.docket_entry_id) :
    row_status (check_file_exists cfg L fs op now).2.1 x =
      row_status L x := by
  simp only [check_file_exists]
  by_cases h1 : check_already_downloaded L op.docket_entry_id = true
  · rw [if_pos h1]
  · rw [if_neg h1]
    by_cases h2 : (cfg.skip_existing &&
        decide (0 < fs (doc_path cfg op))) = true
    · rw [if_pos h2]
      exact row_status_update_other hne
    · rw [if_neg h2]

/-- A preflight pass over opinions carrying other ids does not move the
observed status of a document. -/
lemma preflight_status_frame (cfg : Config) (fs : FS) (now : Nat) :
    ∀ (ops : List Opinion) (L : Ledger) {x : String},
    (∀ q ∈ ops, q.docket_entry_id ≠ x) →
    row_status (preflight cfg fs now ops L).ledger x = row_status L x := by
  intro ops
  induction ops with
  | nil => intro L x _; rfl
  | cons q rest ih =>
    intro L x h
    have hq : x ≠ q.docket_entry_id := fun he => h q (.head _) he.symm
    have hrest : ∀ p ∈ rest, p.docket_entry_id ≠ x :=
      fun p hp => h p (.tail _ hp)
    simp only [preflight]
    by_cases hc : (check_file_exists cfg L fs q now).1 = true
    · rw [if_pos hc]
      dsimp only
      rw [ih _ hrest, row_status_update_other hq,
        row_status_check_other cfg fs q now hq]
    · rw [if_neg hc]
      dsimp only
      rw [ih _ hrest, row_status_check_other cfg fs q now hq]

/-- Every task the preflight leaves in the queue came from the input. -/
lemma preflight_tasks_sub (cfg : Config) (fs : FS) (now : Nat) :
    ∀ (ops : List Opinion) (L : Ledger),
    ∀ t ∈ (preflight cfg fs now ops L).tasks, t ∈ ops := by
  intro ops
  induction ops with
  | nil => intro L t ht; cases ht
  | cons q rest ih =>
    intro L t ht
    simp only [preflight] at ht
    by_cases hc : (check_file_exists cfg L fs q now).1 = true
    · rw [if_pos hc] at ht
      exact .tail _ (ih _ t ht)
    · rw [if_neg hc] at ht
      rcases List.mem_cons.mp ht with h1 | h1
      · rw [h1]; exact .head _
      · exact .tail _ (ih _ t h1)

/-- Processing one task does not move the observed status of any other
document. -/
lemma process_download_status_other (cfg : Config)
    (oracle : Opinion → TaskOutcome) {L : Ledger} (fs : FS) (op : Opinion)
    (now : Nat) {x : String} (hne : x ≠ op.docket_entry_id) :
    row_status (process_download cfg oracle L fs op now).ledger x =
      row_status L x := by
  simp only [process_download]
  cases h : (oracle op).url with
  | none =>
    dsimp only
    rw [row_status_update_other hne, row_status_update_other hne]
  | some u =>
    dsimp only
    by_cases hu : u = ""
    · rw [if_pos hu]
      dsimp only
      rw [row_status_update_other hne, row_status_update_other hne]
    · rw [if_neg hu]
      cases h2 : (oracle op).result with
      | raises m =>
        dsimp only
        rw [row_status_update_other hne, row_status_update_other hne]
      | bytes n =>
        cases n with
        | zero =>
          dsimp only
          rw [row_status_update_other hne, row_status_update_other hne]
        | succ k =>
          dsimp only
          rw [row_status_update_other hne, row_status_update_other hne]

/-- The worker phase over tasks carrying other ids does not move the
observed status of a document. -/
lemma process_all_status_frame (cfg : Config)
    (oracle : Opinion → TaskOutcome) (now : Nat) :
    ∀ (ts : List Opinion) (L : Ledger) (fs : FS) {x : String},
    (∀ t ∈ ts, t.docket_entry_id ≠ x) →
    row_status (process_all cfg oracle now ts L fs).ledger x =
      row_status L x := by
  intro ts
  induction ts with
  | nil => intro L fs x _; rfl
  | cons op rest ih =>
    intro L fs x h
    have hop : x ≠ op.docket_entry_id := fun he => h op (.head _) he.symm
    simp only [process_all]
    rw [ih _ _ fun p hp => h p (.tail _ hp),
      process_download_status_other cfg oracle fs op now hop]

/-- Every network call of one task is issued under that task's id. -/
lemma process_download_calls (cfg : Config)
    (oracle : Opinion → TaskOutcome) (L : Ledger) (fs : FS) (op : Opinion)
    (now : Nat) :
    ∀ ca ∈ (process_download cfg oracle L fs op now).calls,
      ca = op.docket_entry_id := by
  intro ca hca
  simp only [process_download] at hca
  cases h : (oracle op).url with
  | none =>
    rw [h] at hca
    simpa using hca
  | some u =>
    rw [h] at hca
    dsimp only at hca
    by_cases hu : u = ""
    · rw [if_pos hu] at hca
      simpa using hca
    · rw [if_neg hu] at hca
      cases h2 : (oracle op).result with
      | raises m => rw [h2] at hca; simpa using hca
      | bytes n =>
        rw [h2] at hca
        cases n with
        | zero => simpa using hca
        | succ k => simpa using hca

/-- Every network call of the worker phase is issued under the id of some
queued task. -/
lemma process_all_calls (cfg : Config) (oracle : Opinion → TaskOutcome)
    (now : Nat) :
    ∀ (ts : List Opinion) (L : Ledger) (fs : FS),
    ∀ ca ∈ (process_all cfg oracle now ts L fs).calls,
      ∃ t ∈ ts, ca = t.docket_entry_id := by
  intro ts
  induction ts with
  | nil => intro L fs ca hca; cases hca
  | cons op rest ih =>
    intro L fs ca hca
    simp only [process_all] at hca
    rcases List.mem_append.mp hca with h1 | h1
    · exact ⟨op, .head _,
        process_download_calls cfg oracle L fs op now ca h1⟩
    · rcases ih _ _ ca h1 with ⟨t, ht, he⟩
      exact ⟨t, .tail _ ht, he⟩

/-- Pre-flight over a Nodup batch containing a ledger-COMPLETED record:
the record's row ends SKIPPED and no surviving task carries its id. -/
lemma preflight_completed_skip (cfg : Config) (fs : FS) (now : Nat) :
    ∀ (ops : List Opinion) (L : Ledger) (op : Opinion),
    (ops.map Opinion.docket_entry_id).Nodup → op ∈ ops →
    row_status L op.docket_entry_id = some Status.completed →
    row_status (preflight cfg fs now ops L).ledger op.docket_entry_id =
        some Status.skipped ∧
    ∀ t ∈ (preflight cfg fs now ops L).tasks,
      t.docket_entry_id ≠ op.docket_entry_id := by
  intro ops
  induction ops with
  | nil => intro L op _ hmem; cases hmem
  | cons q rest ih =>
    intro L op hN hmem hst
    rw [List.map_cons, List.nodup_cons] at hN
    rcases List.mem_cons.mp hmem with hq | hq
    · subst hq
      have hck : check_already_downloaded L op.docket_entry_id = true :=
        check_of_row_status hst
      have hc1 : (check_file_exists cfg L fs op now) = (true, L, []) := by
        unfold check_file_exists
        rw [if_pos hck]
      have hrest : ∀ p ∈ rest, p.docket_entry_id ≠ op.docket_entry_id :=
        fun p hp he => hN.1 (he ▸ List.mem_map.mpr ⟨p, hp, rfl⟩)
      simp only [preflight, hc1]
      rw [if_pos trivial]
      dsimp only
      constructor
      · rw [preflight_status_frame cfg fs now rest _ hrest]
        exact row_status_update_self hst
      · intro t ht
        exact hrest t (preflight_tasks_sub cfg fs now rest _ t ht)
    · have hqne : q.docket_entry_id ≠ op.docket_entry_id :=
        fun he => hN.1 (he ▸ List.mem_map.mpr ⟨op, hq, rfl⟩)
      have hst2 : ∀ L2 : Ledger,
          row_status L2 op.docket_entry_id = row_status L op.docket_entry_id →
          row_status L2 op.docket_entry_id = some Status.completed :=
        fun L2 he => he.trans hst
      simp only [preflight]
      by_cases hc : (check_file_exists cfg L fs q now).1 = true
      · rw [if_pos hc]
        dsimp only
        have hpres : row_status (update_download_status
            (check_file_exists cfg L fs q now).2.1 q.docket_entry_id
            Status.skipped none none none none now).1 op.docket_entry_id =
            some Status.completed := by
          rw [row_status_update_other hqne.symm,
            row_status_check_other cfg fs q now hqne.symm]
          exact hst
        exact ih _ op hN.2 hq hpres
      · rw [if_neg hc]
        dsimp only
        have hpres : row_status (check_file_exists cfg L fs q now).2.1
            op.docket_entry_id = some Status.completed := by
          rw [row_status_check_other cfg fs q now hqne.symm]
          exact hst
        rcases ih _ op hN.2 hq hpres with ⟨ha, hb⟩
        refine ⟨ha, ?_⟩
        intro t ht
        rcases List.mem_cons.mp ht with h1 | h1
        · rw [h1]; exact hqne
        · exact hb t h1

/-- C1 (amended): under `skipExisting=true`, every record whose ledger
status is COMPLETED at run start (batch ids unique) is marked SKIPPED,
omitted from the work queue, and no network call is issued under its id —
but no verification of the local file takes place for such records: the
exists-and-non-empty check of `_check_file_exists` applies only to
records that are not COMPLETED in the ledger (and only when the global
`skip_existing` setting is on). -/
theorem c1_amended_completed_skipped_without_file_check (cfg : Config)
    (oracle : Opinion → TaskOutcome) (opinions : List Opinion) (L : Ledger)
    (fs : FS) (s0 : Stats) (now : Nat) (op : Opinion)
    (hmem : op ∈ opinions)
    (hnd : (opinions.map Opinion.docket_entry_id).Nodup)
    (hst : row_status L op.docket_entry_id = some Status.completed) :
    row_status (download_opinions cfg oracle opinions true L fs s0
        now).ledger op.docket_entry_id = some Status.skipped ∧
    op ∉ (preflight cfg fs now opinions L).tasks ∧
    op.docket_entry_id ∉
      (download_opinions cfg oracle opinions true L fs s0 now).calls := by
  have hpre := preflight_completed_skip cfg fs now opinions L op hnd hmem hst
  have hL : (download_opinions cfg oracle opinions true L fs s0
      now).ledger =
      (process_all cfg oracle now (preflight cfg fs now opinions L).tasks
        (preflight cfg fs now opinions L).ledger fs).ledger := rfl
  have hC : (download_opinions cfg oracle opinions true L fs s0 now).calls =
      (process_all cfg oracle now (preflight cfg fs now opinions L).tasks
        (preflight cfg fs now opinions L).ledger fs).calls := rfl
  refine ⟨?_, ?_, ?_⟩
  · rw [hL, process_all_status_frame cfg oracle now _ _ fs
      (fun t ht => hpre.2 t ht)]
    exact hpre.1
  · intro hmem2
    exact hpre.2 op hmem2 rfl
  · intro hca
    rw [hC] at hca
    rcases process_all_calls cfg oracle now _ _ fs _ hca with ⟨t, ht, he⟩
    exact hpre.2 t ht he.symm

/-- The configuration of the C1 instances. -/
def c1_cfg : Config := ⟨"data/documents", true⟩

/-- A filesystem with no file anywhere: every path has size 0. -/
def c1_fs : FS := fun _ => 0

/-- The C1 ledger: `sample_opinion` recorded COMPLETED. -/
def c1_ledger : Ledger :=
  [{ new_row sample_opinion 0 with status := Status.completed }]

/-- An oracle that is never consulted in the C1 scenario. -/
def c1_oracle : Opinion → TaskOutcome :=
  fun _ => ⟨none, DownloadResult.raises "unused"⟩

/-- The C1 run: `skip_existing=true` over the one COMPLETED record. -/
def c1_run : RunResult :=
  download_opinions c1_cfg c1_oracle [sample_opinion] true c1_ledger c1_fs
    ⟨0, 0, 0, 0⟩ 1

/-- C1 counterexample: the local file is absent (size 0 at the derived
path, as everywhere), the ledger says COMPLETED — and the run still marks
the record SKIPPED with zero network calls: no file-exists-and-non-empty
verification precedes the SKIPPED marking for ledger-COMPLETED
records. -/
theorem c1_counterexample :
    c1_fs (doc_path c1_cfg sample_opinion) = 0 ∧
    row_status c1_run.ledger sample_opinion.docket_entry_id =
      some Status.skipped ∧
    c1_run.stats.skipped = 1 ∧
    c1_run.calls = [] := by
  refine ⟨by decide, by decide, by decide, by decide⟩

/-- Witness: the amended C1 statement applied at the concrete one-record
run. -/
theorem c1_amended_witness :
    row_status (download_opinions c1_cfg c1_oracle [sample_opinion] true
        c1_ledger c1_fs ⟨0, 0, 0, 0⟩ 1).ledger
      sample_opinion.docket_entry_id = some Status.skipped ∧
    sample_opinion ∉
      (preflight c1_cfg c1_fs 1 [sample_opinion] c1_ledger).tasks ∧
    sample_opinion.docket_entry_id ∉
      (download_opinions c1_cfg c1_oracle [sample_opinion] true c1_ledger
        c1_fs ⟨0, 0, 0, 0⟩ 1).calls :=
  c1_amended_completed_skipped_without_file_check c1_cfg c1_oracle
    [sample_opinion] c1_ledger c1_fs ⟨0, 0, 0, 0⟩ 1 sample_opinion
    (by decide) (by decide) (by decide)

/-- Dispatch to DOWNLOADING is in the extended machine from any status. -/
lemma extended_to_downloading (a : Status) :
    extended_step a Status.downloading = true := by cases a <;> rfl

/-- Promotion to COMPLETED is in the extended machine from any status. -/
lemma extended_to_completed (a : Status) :
    extended_step a Status.completed = true := by cases a <;> rfl

/-- A positive `check_already_downloaded` pins the observed status. -/
lemma row_status_of_check {L : Ledger} {id : String}
    (h : check_already_downloaded L id = true) :
    row_status L id = some Status.completed := by
  unfold check_already_downloaded at h
  unfold row_status
  cases hf : L.find? (fun r => r.docket_entry_id = id) with
  | none => rw [hf] at h; cases h
  | some r =>
    rw [hf] at h
    simp only [decide_eq_true_eq] at h
    rw [Option.map_some', h]

/-- Trace entries of one UPDATE all satisfy a per-matching-row bound. -/
lemma update_trace_all {L : Ledger} {id : String} {st : Status}
    {url path : Option String} {size : Option Nat} {err : Option String}
    {now : Nat}
    (hok : ∀ r ∈ L, r.docket_entry_id = id → extended_step r.status st = true) :
    ∀ e ∈ (update_download_status L id st url path size err now).2,
      extended_step e.2.1 e.2.2 = true := by
  intro e he
  rcases update_trace_mem he with ⟨r, hr, hid, rfl⟩
  exact hok r hr hid

/-- The stale sweep preserves the id column. -/
lemma cleanup_ids (L : Ledger) (cutoff : Nat) :
    ((cleanup_stale_downloads L cutoff).1).map Row.docket_entry_id =
      L.map Row.docket_entry_id := by
  unfold cleanup_stale_downloads
  rw [List.map_map]
  refine List.map_congr_left fun r _ => ?_
  by_cases h : is_stale cutoff r = true
  · rw [Function.comp_apply, if_pos h]
  · rw [Function.comp_apply, if_neg h]

/-- Every stale-sweep trace entry is the DOWNLOADING→FAILED transition of
§4.3. -/
lemma cleanup_trace (L : Ledger) (cutoff : Nat) :
    ∀ e ∈ (cleanup_stale_downloads L cutoff).2,
      extended_step e.2.1 e.2.2 = true := by
  intro e he
  unfold cleanup_stale_downloads at he
  rcases List.mem_filterMap.mp he with ⟨r, _, hfm⟩
  by_cases hs : is_stale cutoff r = true
  · rw [if_pos hs] at hfm
    obtain rfl := Option.some.inj hfm
    have hd : r.status = Status.downloading := by
      unfold is_stale at hs
      simp only [Bool.and_eq_true, decide_eq_true_eq] at hs
      exact hs.1
    dsimp only
    rw [hd]
    rfl
  · rw [if_neg hs] at hfm
    cases hfm

/-- Seeding preserves uniqueness of the id column. -/
lemma record_opinion_nodup {L : Ledger} (op : Opinion) (now : Nat)
    (hN : (L.map Row.docket_entry_id).Nodup) :
    ((record_opinion L op now).map Row.docket_entry_id).Nodup := by
  unfold record_opinion
  by_cases h : L.any (fun r => r.docket_entry_id = op.docket_entry_id) = true
  · rw [if_pos h]; exact hN
  · rw [if_neg h, List.map_append]
    refine List.nodup_append.mpr ⟨hN, List.nodup_singleton _, ?_⟩
    intro a ha hb
    have hai : a = op.docket_entry_id := by
      have : (new_row op now).docket_entry_id = op.docket_entry_id := rfl
      simpa [new_row] using hb
    rcases List.mem_map.mp ha with ⟨r, hr, hrid⟩
    exact h (List.any_eq_true.mpr ⟨r, hr, by
      rw [hrid, hai]; exact decide_eq_true rfl⟩)

/-- The pre-flight check preserves the id column. -/
lemma check_ids (cfg : Config) (L : Ledger) (fs : FS) (op : Opinion)
    (now : Nat) :
    ((check_file_exists cfg L fs op now).2.1).map Row.docket_entry_id =
      L.map Row.docket_entry_id := by
  simp only [check_file_exists]
  by_cases h1 : check_already_downloaded L op.docket_entry_id = true
  · rw [if_pos h1]
  · rw [if_neg h1]
    by_cases h2 : (cfg.skip_existing &&
        decide (0 < fs (doc_path cfg op))) = true
    · rw [if_pos h2]
      exact update_ids L op.docket_entry_id Status.completed none
        (some (doc_path cfg op)) (some (fs (doc_path cfg op))) none now
    · rw [if_neg h2]

/-- Every pre-flight-check trace entry writes COMPLETED. -/
lemma check_trace (cfg : Config) (L : Ledger) (fs : FS) (op : Opinion)
    (now : Nat) :
    ∀ e ∈ (check_file_exists cfg L fs op now).2.2,
      extended_step e.2.1 e.2.2 = true := by
  simp only [check_file_exists]
  by_cases h1 : check_already_downloaded L op.docket_entry_id = true
  · rw [if_pos h1]; intro e he; cases he
  · rw [if_neg h1]
    by_cases h2 : (cfg.skip_existing &&
        decide (0 < fs (doc_path cfg op))) = true
    · rw [if_pos h2]
      exact update_trace_all fun r _ _ => extended_to_completed r.status
    · rw [if_neg h2]; intro e he; cases he

/-- Processing one task preserves the id column. -/
lemma process_download_ids (cfg : Config) (oracle : Opinion → TaskOutcome)
    (L : Ledger) (fs : FS) (op : Opinion) (now : Nat) :
    ((process_download cfg oracle L fs op now).ledger).map
        Row.docket_entry_id = L.map Row.docket_entry_id := by
  simp only [process_download]
  cases h : (oracle op).url with
  | none => dsimp only; rw [update_ids, update_ids]
  | some u =>
    dsimp only
    by_cases hu : u = ""
    · rw [if_pos hu]; dsimp only; rw [update_ids, update_ids]
    · rw [if_neg hu]
      cases h2 : (oracle op).result with
      | raises m => dsimp only; rw [update_ids, update_ids]
      | bytes n =>
        cases n with
        | zero => dsimp only; rw [update_ids, update_ids]
        | succ k => dsimp only; rw [update_ids, update_ids]

/-- Every trace entry of one task: a dispatch write to DOWNLOADING, then a
COMPLETED write or a FAILED write issued while the row is DOWNLOADING. -/
lemma process_download_trace (cfg : Config)
    (oracle : Opinion → TaskOutcome) (L : Ledger) (fs : FS) (op : Opinion)
    (now : Nat) :
    ∀ e ∈ (process_download cfg oracle L fs op now).trace,
      extended_step e.2.1 e.2.2 = true := by
  have hfail : ∀ (m : String) (e : String × Status × Status),
      e ∈ (update_download_status
        (update_download_status L op.docket_entry_id Status.downloading
          none none none none now).1
        op.docket_entry_id Status.failed none none none (some m) now).2 →
      extended_step e.2.1 e.2.2 = true := by
    intro m
    refine update_trace_all fun r hr hid => ?_
    rw [mem_update_status hr hid]
    rfl
  have hdl : ∀ e ∈ (update_download_status L op.docket_entry_id
      Status.downloading none none none none now).2,
      extended_step e.2.1 e.2.2 = true :=
    update_trace_all fun r _ _ => extended_to_downloading r.status
  simp only [process_download]
  cases h : (oracle op).url with
  | none =>
    dsimp only
    intro e he
    rcases List.mem_append.mp he with h1 | h1
    · exact hdl e h1
    · exact hfail _ e h1
  | some u =>
    dsimp only
    by_cases hu : u = ""
    · rw [if_pos hu]
      intro e he
      rcases List.mem_append.mp he with h1 | h1
      · exact hdl e h1
      · exact hfail _ e h1
    · rw [if_neg hu]
      cases h2 : (oracle op).result with
      | raises m =>
        intro e he
        rcases List.mem_append.mp he with h1 | h1
        · exact hdl e h1
        · exact hfail _ e h1
      | bytes n =>
        cases n with
        | zero =>
          intro e he
          rcases List.mem_append.mp he with h1 | h1
          · exact hdl e h1
          · exact hfail _ e h1
        | succ k =>
          intro e he
          rcases List.mem_append.mp he with h1 | h1
          · exact hdl e h1
          · exact update_trace_all
              (fun r _ _ => extended_to_completed r.status) e h1

/-- The worker phase preserves the id column. -/
lemma process_all_ids (cfg : Config) (oracle : Opinion → TaskOutcome)
    (now : Nat) : ∀ (ts : List Opinion) (L : Ledger) (fs : FS),
    ((process_all cfg oracle now ts L fs).ledger).map Row.docket_entry_id =
      L.map Row.docket_entry_id := by
  intro ts
  induction ts with
  | nil => intro L fs; rfl
  | cons op rest ih =>
    intro L fs
    simp only [process_all]
    rw [ih, process_download_ids]

/-- Every worker-phase trace entry is in the extended machine. -/
lemma process_all_trace (cfg : Config) (oracle : Opinion → TaskOutcome)
    (now : Nat) : ∀ (ts : List Opinion) (L : Ledger) (fs : FS),
    ∀ e ∈ (process_all cfg oracle now ts L fs).trace,
      extended_step e.2.1 e.2.2 = true := by
  intro ts
  induction ts with
  | nil => intro L fs e he; cases he
  | cons op rest ih =>
    intro L fs e he
    simp only [process_all] at he
    rcases List.mem_append.mp he with h1 | h1
    · exact process_download_trace cfg oracle L fs op now e h1
    · exact ih _ _ e h1

/-- The preflight loop preserves the id column. -/
lemma preflight_ids (cfg : Config) (fs : FS) (now : Nat) :
    ∀ (ops : List Opinion) (L : Ledger),
    ((preflight cfg fs now ops L).ledger).map Row.docket_entry_id =
      L.map Row.docket_entry_id := by
  intro ops
  induction ops with
  | nil => intro L; rfl
  | cons q rest ih =>
    intro L
    simp only [preflight]
    by_cases hc : (check_file_exists cfg L fs q now).1 = true
    · rw [if_pos hc]
      dsimp only
      rw [ih, update_ids, check_ids]
    · rw [if_neg hc]
      dsimp only
      rw [ih, check_ids]

/-- Every preflight trace entry is in the extended machine, provided the
ledger satisfies its UNIQUE id constraint: the SKIPPED write always lands
on a row that is COMPLETED at that moment. -/
lemma preflight_trace (cfg : Config) (fs : FS) (now : Nat) :
    ∀ (ops : List Opinion) (L : Ledger),
    (L.map Row.docket_entry_id).Nodup →
    ∀ e ∈ (preflight cfg fs now ops L).trace,
      extended_step e.2.1 e.2.2 = true := by
  intro ops
  induction ops with
  | nil => intro L _ e he; cases he
  | cons q rest ih =>
    intro L hN e he
    by_cases h1 : check_already_downloaded L q.docket_entry_id = true
    · have hc1 : check_file_exists cfg L fs q now = (true, L, []) := by
        unfold check_file_exists
        rw [if_pos h1]
      rw [preflight] at he
      rw [hc1] at he
      rw [if_pos rfl] at he
      dsimp only at he
      rcases List.mem_append.mp he with h2 | h2
      · rcases List.mem_append.mp h2 with h3 | h3
        · cases h3
        · refine update_trace_all (fun r hr hid => ?_) e h3
          rw [status_of_mem_of_nodup hN (row_status_of_check h1) hr hid]
          rfl
      · refine ih _ ?_ e h2
        rw [update_ids]
        exact hN
    · by_cases h2 : (cfg.skip_existing &&
          decide (0 < fs (doc_path cfg q))) = true
      · have hc1 : check_file_exists cfg L fs q now =
            (true,
             (update_download_status L q.docket_entry_id Status.completed
               none (some (doc_path cfg q)) (some (fs (doc_path cfg q)))
               none now).1,
             (update_download_status L q.docket_entry_id Status.completed
               none (some (doc_path cfg q)) (some (fs (doc_path cfg q)))
               none now).2) := by
          unfold check_file_exists
          rw [if_neg h1, if_pos h2]
        rw [preflight] at he
        rw [hc1] at he
        rw [if_pos rfl] at he
        dsimp only at he
        rcases List.mem_append.mp he with h3 | h3
        · rcases List.mem_append.mp h3 with h4 | h4
          · exact update_trace_all
              (fun r _ _ => extended_to_completed r.status) e h4
          · refine update_trace_all (fun r hr hid => ?_) e h4
            rw [mem_update_status hr hid]
            rfl
        · refine ih _ ?_ e h3
          rw [update_ids, update_ids]
          exact hN
      · have hc1 : check_file_exists cfg L fs q now = (false, L, []) := by
          unfold check_file_exists
          rw [if_neg h1, if_neg h2]
        rw [preflight] at he
        rw [hc1] at he
        rw [if_neg (by simp)] at he
        dsimp only at he
        rcases List.mem_append.mp he with h2 | h2
        · cases h2
        · exact ih _ hN e h2

/-- One coordinator run preserves the id column. -/
lemma download_opinions_ids (cfg : Config)
    (oracle : Opinion → TaskOutcome) (opinions : List Opinion)
    (sk : Bool) (L : Ledger) (fs : FS) (s0 : Stats) (now : Nat) :
    ((download_opinions cfg oracle opinions sk L fs s0 now).ledger).map
        Row.docket_entry_id = L.map Row.docket_entry_id := by
  simp only [download_opinions]
  by_cases hsk : sk = true
  · rw [if_pos hsk]
    rw [process_all_ids, preflight_ids]
  · rw [if_neg hsk]
    rw [process_all_ids]

/-- Every trace entry of one coordinator run is in the extended machine
(ledger ids unique). -/
lemma download_opinions_trace (cfg : Config)
    (oracle : Opinion → TaskOutcome) (opinions : List Opinion) (sk : Bool)
    (L : Ledger) (fs : FS) (s0 : Stats) (now : Nat)
    (hN : (L.map Row.docket_entry_id).Nodup) :
    ∀ e ∈ (download_opinions cfg oracle opinions sk L fs s0 now).trace,
      extended_step e.2.1 e.2.2 = true := by
  simp only [download_opinions]
  by_cases hsk : sk = true
  · rw [if_pos hsk]
    intro e he
    rcases List.mem_append.mp he with h1 | h1
    · exact preflight_trace cfg fs now opinions L hN e h1
    · exact process_all_trace cfg oracle now _ _ fs e h1
  · rw [if_neg hsk]
    intro e he
    rcases List.mem_append.mp he with h1 | h1
    · cases h1
    · exact process_all_trace cfg oracle now _ _ fs e h1

/-- One pipeline operation preserves the id column's uniqueness. -/
lemma apply_op_nodup (cfg : Config) (L : Ledger) (fs : FS)
    (p : PipelineOp) (hN : (L.map Row.docket_entry_id).Nodup) :
    (((apply_op cfg L fs p).1).map Row.docket_entry_id).Nodup := by
  cases p with
  | seed op now => exact record_opinion_nodup op now hN
  | run ops sk oracle s0 now =>
    dsimp only [apply_op]
    rw [download_opinions_ids]
    exact hN
  | reconcile cutoff =>
    dsimp only [apply_op]
    rw [cleanup_ids]
    exact hN

/-- Every trace entry of one pipeline operation is in the extended
machine. -/
lemma apply_op_trace (cfg : Config) (L : Ledger) (fs : FS)
    (p : PipelineOp) (hN : (L.map Row.docket_entry_id).Nodup) :
    ∀ e ∈ (apply_op cfg L fs p).2.2, extended_step e.2.1 e.2.2 = true := by
  cases p with
  | seed op now => intro e he; cases he
  | run ops sk oracle s0 now =>
    exact download_opinions_trace cfg oracle ops sk L fs s0 now hN
  | reconcile cutoff => exact cleanup_trace L cutoff

/-- A row recorded COMPLETED for the C4 scenario. -/
def c4_ledger : Ledger :=
  [{ new_row sample_opinion 0 with status := Status.completed }]

/-- The C4 configuration. -/
def c4_cfg : Config := ⟨"data/documents", true⟩

/-- A filesystem with no file anywhere, for the C4 scenario. -/
def c4_fs : FS := fun _ => 0

/-- The single pipeline operation of the C4 counterexample: one
`skip_existing=true` run over the already-COMPLETED record. -/
def c4_ops : List PipelineOp :=
  [PipelineOp.run [sample_opinion] true
    (fun _ => ⟨none, DownloadResult.raises "unused"⟩) ⟨0, 0, 0, 0⟩ 1]

/-- C4 counterexample: the pipeline performs the status write
COMPLETED→SKIPPED (the pre-flight skip marking), which the §4.3 machine
does not contain — records do leave COMPLETED. -/
theorem c4_counterexample :
    (apply_ops c4_cfg c4_ops c4_ledger c4_fs).2.2 =
      [(sample_opinion.docket_entry_id, Status.completed,
        Status.skipped)] ∧
    spec_step Status.completed Status.skipped = false := by
  refine ⟨by decide, by decide⟩

/-- C4 (amended): across every sequence of pipeline operations over a
ledger with unique ids, each recorded status write stays inside the §4.3
machine extended with: any status → DOWNLOADING (dispatch does not check
the prior status), any status → COMPLETED (the pre-flight filesystem
promotion overwrites whatever was there), and COMPLETED → SKIPPED (the
pre-flight skip marking); in particular records do leave COMPLETED and
SKIPPED. -/
theorem c4_amended_pipeline_transitions (cfg : Config)
    (ops : List PipelineOp) (L : Ledger) (fs : FS)
    (hN : (L.map Row.docket_entry_id).Nodup) :
    ∀ e ∈ (apply_ops cfg ops L fs).2.2,
      extended_step e.2.1 e.2.2 = true := by
  induction ops generalizing L fs with
  | nil => intro e he; cases he
  | cons p rest ih =>
    intro e he
    simp only [apply_ops] at he
    rcases List.mem_append.mp he with h1 | h1
    · exact apply_op_trace cfg L fs p hN e h1
    · exact ih _ _ (apply_op_nodup cfg L fs p hN) e h1

/-- Witness: the amended C4 machine accepts the COMPLETED→SKIPPED write
the concrete pipeline of the counterexample scenario performs. -/
theorem c4_amended_witness :
    extended_step Status.completed Status.skipped = true :=
  c4_amended_pipeline_transitions c4_cfg c4_ops c4_ledger c4_fs (by decide)
    (sample_opinion.docket_entry_id, Status.completed, Status.skipped)
    (by decide)

/-- A row left DOWNLOADING with an old `started_at`, as after a crash. -/
def c6_stale_row : Row :=
  { new_row sample_opinion 0 with
      status := Status.downloading
      attempts := 1
      started_at := some 2 }

/-- C6: the stale sweep (`cleanup_stale_downloads`), row by row: every
DOWNLOADING record whose `started_at` is older than the cutoff ends FAILED
with the distinguishing error marker — in particular not COMPLETED — and
every row not matching the condition is returned unchanged. -/
theorem c6_reconcile_stale (L : Ledger) (cutoff : Nat) (i : Nat) (r : Row)
    (h : L[i]? = some r) :
    (is_stale cutoff r = true →
      (cleanup_stale_downloads L cutoff).1[i]? =
        some { r with status := Status.failed,
                      error_message := some stale_marker } ∧
      Status.failed ≠ Status.completed) ∧
    (is_stale cutoff r = false →
      (cleanup_stale_downloads L cutoff).1[i]? = some r) := by
  unfold cleanup_stale_downloads
  rw [List.getElem?_map, h]
  constructor
  · intro hs
    exact ⟨by simp only [Option.map_some', if_pos hs], by decide⟩
  · intro hs
    simp [hs]

/-- A tenacity-wrapped body whose attempt returns normally finishes on
that attempt: one attempt used, no backoff slept. -/
lemma tenacity_first_ok {body : Nat → Except RequestExn APIResponse}
    {i : Nat} {r : APIResponse} (hb : body i = Except.ok r)
    (sa fuel : Nat) (hf : fuel ≠ 0) :
    tenacity_go body sa i fuel = (1, [], Except.ok r) := by
  cases fuel with
  | zero => exact absurd rfl hf
  | succ f => simp only [tenacity_go, hb]

/-- The `_make_request` body never raises: all exceptions are converted to
failed Responses inside the attempt. -/
lemma make_request_body_ok (net : Nat → AttemptBehavior) (i : Nat) :
    ∃ r, make_request_body net i = Except.ok r := by
  unfold make_request_body
  cases net i <;> exact ⟨_, rfl⟩

/-- The network behavior exhibiting the missing retry: the first attempt
raises a retryable connection error; any further attempt would succeed
with HTTP 200. -/
def c2_net : Nat → AttemptBehavior := fun i =>
  if i = 0 then
    AttemptBehavior.raises true "Client error: Connection reset by peer"
  else AttemptBehavior.http 200 "ok"

/-- C2 evaluation: `_make_request` never retries — its `except` clauses
catch the very exception types its tenacity decorator is configured to
retry on, so every call consults the network exactly once and performs no
backoff sleep. At the concrete failing input (a transport error on the
first attempt that a second attempt would have survived) the caller
receives a failed Response after a single network attempt instead of the
3-attempt retry the decorator declares. HTTP 4xx/5xx are likewise
returned (not raised, not retried) as plain failed Responses. -/
theorem c2_transport_failures_not_retried :
    (∀ net, (make_request net).1 = 1 ∧ (make_request net).2.1 = []) ∧
    make_request c2_net = (1, [],
      Except.ok ⟨false, none, none,
        some "Client error: Connection reset by peer"⟩) ∧
    c2_net 1 = AttemptBehavior.http 200 "ok" ∧
    make_request (fun _ => AttemptBehavior.http 503 "oops") = (1, [],
      Except.ok ⟨false, some "oops", some 503, some "HTTP 503"⟩) := by
  refine ⟨fun net => ?_, rfl, rfl, rfl⟩
  obtain ⟨r, hr⟩ := make_request_body_ok net 0
  have h : make_request net = (1, [], Except.ok r) :=
    tenacity_first_ok hr 3 3 (by decide)
  rw [h]
  exact ⟨rfl, rfl⟩

/-- An `acquire()` that finds a token takes none of the waiting path: no
sleep, one token consumed. -/
lemma acquire_loop_no_wait (rl : RateLimiter) (now : ℚ) (fuel : Nat)
    (hfuel : fuel ≠ 0) (h : 0 < rl.tokens) :
    acquire_loop rl now fuel = ([], { rl with tokens := rl.tokens - 1 }) := by
  cases fuel with
  | zero => exact absurd rfl hfuel
  | succ f =>
    simp only [acquire_loop]
    rw [if_neg (not_le.mpr h)]

/-- `k` immediate `acquire()` calls against a bucket holding at least `k`
tokens: no sleep at all, `k` tokens consumed. -/
lemma acquire_seq_no_wait (fuel : Nat) (now : ℚ) :
    ∀ (k : Nat) (rl : RateLimiter), fuel ≠ 0 → (k : ℚ) ≤ rl.tokens →
      acquire_seq fuel now k rl =
        ([], { rl with tokens := rl.tokens - k }) := by
  intro k
  induction k with
  | zero =>
    intro rl _ _
    simp only [acquire_seq, Nat.cast_zero, sub_zero]
  | succ n ih =>
    intro rl hfuel h
    have h1 : 0 < rl.tokens := by
      have : (0 : ℚ) < (n : ℚ) + 1 := by positivity
      calc (0 : ℚ) < (n : ℚ) + 1 := this
        _ = ((n + 1 : Nat) : ℚ) := by push_cast; ring
        _ ≤ rl.tokens := h
    simp only [acquire_seq]
    rw [acquire_loop_no_wait rl now fuel hfuel h1,
      ih { rl with tokens := rl.tokens - 1 } hfuel (by
        have hh : (n : ℚ) ≤ rl.tokens - 1 := by push_cast at h; linarith
        exact hh)]
    simp only [List.nil_append]
    congr 1
    push_cast
    ring

/-- One pass of the wait branch: bucket empty even after refill, so the
call sleeps the computed interval and loops at the advanced clock. -/
lemma acquire_loop_succ_wait (rl : RateLimiter) (now : ℚ) (fuel : Nat)
    (h : rl.tokens ≤ 0)
    (h2 : min rl.max_burst
      (rl.tokens + (now - rl.last_update) * (rl.calls / rl.period)) ≤ 0) :
    acquire_loop rl now (fuel + 1) =
      (max (1 / 100)
          ((1 - min rl.max_burst
              (rl.tokens + (now - rl.last_update) * (rl.calls / rl.period))) *
            (rl.period / rl.calls)) ::
        (acquire_loop
          { rl with
              tokens := min rl.max_burst
                (rl.tokens + (now - rl.last_update) * (rl.calls / rl.period))
              last_update := now }
          (now + max (1 / 100)
            ((1 - min rl.max_burst
                (rl.tokens +
                  (now - rl.last_update) * (rl.calls / rl.period))) *
              (rl.period / rl.calls))) fuel).1,
       (acquire_loop
          { rl with
              tokens := min rl.max_burst
                (rl.tokens + (now - rl.last_update) * (rl.calls / rl.period))
              last_update := now }
          (now + max (1 / 100)
            ((1 - min rl.max_burst
                (rl.tokens +
                  (now - rl.last_update) * (rl.calls / rl.period))) *
              (rl.period / rl.calls))) fuel).2) := by
  simp only [acquire_loop]
  rw [if_pos h, if_pos h2]

/-- One pass of the refill branch: the elapsed time grants tokens, the
loop exits consuming one. -/
lemma acquire_loop_succ_refill (rl : RateLimiter) (now : ℚ) (fuel : Nat)
    (h : rl.tokens ≤ 0)
    (h2 : ¬min rl.max_burst
      (rl.tokens + (now - rl.last_update) * (rl.calls / rl.period)) ≤ 0) :
    acquire_loop rl now (fuel + 1) =
      ([], { rl with
               tokens := min rl.max_burst
                 (rl.tokens +
                   (now - rl.last_update) * (rl.calls / rl.period)) - 1
               last_update := now }) := by
  simp only [acquire_loop]
  rw [if_pos h, if_neg h2]

/-- The limiter of the C3 scenario: `rate=10, period=1.0, burst=20`,
created at instant 0 with a full bucket. -/
def c3_rl : RateLimiter := mk_rate_limiter 10 1 20 0

/-- C3: with `rate=10, period=1.0, burst=20` and full initial tokens, 20
`acquire()` calls at one instant complete with no sleep and drain the
bucket to 0; the 21st call (same instant) first sleeps exactly
`max(0.01, (1 - tokens) * period / rate)` with `tokens = 0` at check
time, i.e. 0.1 s — a positive, bounded delay — before re-checking, after
which the refill grants a token and it returns. -/
theorem c3_rate_limiter_burst_then_block :
    (acquire_seq 5 0 20 c3_rl).1 = [] ∧
    (acquire_seq 5 0 20 c3_rl).2.tokens = 0 ∧
    (acquire_loop (acquire_seq 5 0 20 c3_rl).2 0 5).1 = [(1 : ℚ) / 10] ∧
    ((1 : ℚ) / 10) = max (1 / 100) ((1 - 0) * (1 / 10)) ∧
    (0 : ℚ) < 1 / 10 := by
  have h20 := acquire_seq_no_wait 5 0 20 c3_rl (by decide)
    (by norm_num [c3_rl, mk_rate_limiter])
  have hX : (acquire_seq 5 0 20 c3_rl).2 = ⟨10, 1, 20, 0, 0⟩ := by
    rw [h20]
    simp only [c3_rl, mk_rate_limiter]
    norm_num
  refine ⟨by rw [h20], by rw [hX], ?_, by rw [max_eq_right] <;> norm_num,
    by norm_num⟩
  rw [hX, show (5 : Nat) = 4 + 1 from rfl,
    acquire_loop_succ_wait _ _ _ (by norm_num) (by norm_num)]
  rw [show (4 : Nat) = 3 + 1 from rfl,
    acquire_loop_succ_refill _ _ _ (by norm_num) (by norm_num [min_def])]
  norm_num [min_def, max_def]

/-- Witness: the sweep applied to a one-row ledger holding a stale
DOWNLOADING record, cutoff 10. -/
theorem c6_reconcile_stale_witness :
    (is_stale 10 c6_stale_row = true →
      (cleanup_stale_downloads [c6_stale_row] 10).1[0]? =
        some { c6_stale_row with
                 status := Status.failed
                 error_message := some stale_marker } ∧
      Status.failed ≠ Status.completed) ∧
    (is_stale 10 c6_stale_row = false →
      (cleanup_stale_downloads [c6_stale_row] 10).1[0]? =
        some c6_stale_row) :=
  c6_reconcile_stale [c6_stale_row] 10 0 c6_stale_row rfl

end Dawson
